import Mathlib


/-!
Verification development for the secure-frame-ts SFrame library.

Byte sequences are modelled as `List Nat` with values kept below 256 by
construction.  JavaScript numbers are modelled as `Nat`; double-precision
arithmetic is exact on most of the integer ranges exercised here, and the
two places where it is not are modelled explicitly: the sender counter
increment at `2^53` (`jsNumSucc`) and the `Math.log`-based byte-length
computation of the header encoder (`calculateKLENorLEN`, characterized by
its exact IEEE thresholds).  Fallible code returns `Except JsError`.
-/


/-- Error labels, from `src/Types.ts` (`SFrameErrorType`). -/
inductive SFrameErrorType where
  | DecryptionFailure
  | EncryptionFailure
  | InvalidKey
  | InvalidHeaderKey
  | InitializationVectorError
  | ReplayAttackError
  | AuthenticationError
  | Unknown
deriving DecidableEq, Repr

/-- A thrown JavaScript error: either an `SFrameError` (with its `type` tag)
or a plain `Error`/`RangeError` identified by its message. -/
inductive JsError where
  | sframe (type : SFrameErrorType) (message : String)
  | plain (message : String)
deriving DecidableEq, Repr

/-- Indexed read on a `Uint8Array`.  Out-of-range reads yield `undefined` in
JavaScript, which the parsing arithmetic treats as an unspecified numeric
value; it is modelled as 0. -/
def jsGet (l : List Nat) (i : Nat) : Nat := l.getD i 0

/-- The `subarray(a, b)`/`slice(a, b)` of a `Uint8Array`, clamping both ends
to the buffer. -/
def jsSlice (l : List Nat) (a b : Nat) : List Nat := (l.take b).drop a

/-- The `dst.set(src, offset)` of a `Uint8Array`: `none` models the
`RangeError` thrown when the source does not fit. -/
def jsSet (dst src : List Nat) (offset : Nat) : Option (List Nat) :=
  if offset + src.length ≤ dst.length then
    some (dst.take offset ++ src ++ dst.drop (offset + src.length))
  else none

/-- Big-endian value of a byte sequence, as accumulated by the parser loops
`acc = acc * 256 + view[...]`. -/
def ofBytesBE (bs : List Nat) : Nat := bs.foldl (fun acc b => acc * 256 + b) 0

/-- The parser's accumulation loop `for i in [0, len): acc = acc * 256 +
view[start + i]` from `parseSFrameHeader`. -/
def ofBytesBEFrom (view : List Nat) (start len : Nat) : Nat :=
  (List.range len).foldl (fun acc i => acc * 256 + jsGet view (start + i)) 0

/-- Model of `toUint8ArrayViaI64` from `generateSFrameHeader`: the value's low
`length` bytes, big-endian (`BigInt` → little-endian 8-byte view → take →
reverse).  Byte `i` of the little-endian view is `(input >> 8*i) & 0xff`,
written here as `input / 256 ^ i % 256`. -/
def toBytesBE (input length : Nat) : List Nat :=
  ((List.range length).map (fun i => input / 256 ^ i % 256)).reverse

/-- Fuel-indexed floor logarithm base 256, total and kernel-reducible.
`log256Fuel fuel i = ⌊log₂₅₆ i⌋` whenever `i < 256 ^ fuel`. -/
def log256Fuel (fuel i : Nat) : Nat :=
  match fuel with
  | 0 => 0
  | fuel' + 1 => if i < 256 then 0 else log256Fuel fuel' (i / 256) + 1

/-- Model of `calculateKLENorLEN` from `generateSFrameHeader`:
`i ? parseInt((Math.log(i)/Math.log(256)).toString()) : 0`, computed by the
source in IEEE binary64 arithmetic.  That computation — truncate the double
quotient `log(i)/log(256)` — is weakly monotone in `i` (rounding, `log`,
division by a positive constant and truncation are all monotone), so over
integer inputs it is characterized exactly by the least input reaching each
output value.  Those thresholds, computed from the correctly-rounded
binary64 logarithm, are `256^k` exactly for outputs 1..5 and then fall
short of the power: output 6 starts at `2^48 - 1`, output 7 at
`2^56 - 411`, and output 8 at `2^64 - 93183` — the double quotient rounds
up to the integer in a narrow band below each power of 256, making those
inputs look one byte longer (and, at the top band, overflowing the 8-byte
counter check).  Beyond the final threshold the exact floor logarithm
(clamped to at least 8) stands in; every consumer only tests `> 7` there,
so the two agree observably.  An integer above `2^53` that is not an exact
double is treated as its nearest double, which is what any JavaScript call
site would have produced. -/
def calculateKLENorLEN (i : Nat) : Nat :=
  if i < 256 then 0
  else if i < 65536 then 1
  else if i < 16777216 then 2
  else if i < 4294967296 then 3
  else if i < 1099511627776 then 4
  else if i < 281474976710655 then 5
  else if i < 72057594037927525 then 6
  else if i < 18446744073709458433 then 7
  else max 8 (log256Fuel 128 i)

/-- The least counter value at which the double-precision length
computation of `generateSFrameHeader` reaches 8, namely `2^64 - 93183`:
`generateSFrameHeader` succeeds for counters below this bound and throws
(`ctrLEN > 7`) at or above it, even though such counters are still below
`2^64`. -/
def counterOverflowThreshold : Nat := 18446744073709458433

/-- The `SFrameHeader` record from `src/SFrameHeader.ts`. -/
structure SFrameHeader where
  data : List Nat
  keyId : Nat
  counter : Nat
  rawCounter : List Nat
deriving DecidableEq, Repr

/-- Constant `SFRAME_HEADER_MAXKEYID = Number.MAX_SAFE_INTEGER = 2^53 - 1`. -/
def SFRAME_HEADER_MAXKEYID : Nat := 2 ^ 53 - 1

/-- Constant `lengthAdjustment`: an encoded length field of 0 means 1 byte, etc. -/
def lengthAdjustment : Nat := 1

/-- Model of `parseSFrameHeader` from `src/SFrameHeader.ts`.  Bit operations on the
metadata byte are written arithmetically: `(metadata >> 4) & 0x07` is
`metadata / 16 % 8`, `!!(metadata & 0x08)` is `metadata / 8 % 2 == 1`,
`metadata & 0x07` is `metadata % 8`. -/
def parseSFrameHeader (buffer : List Nat) : SFrameHeader :=
  let metadata := jsGet buffer 0
  let ctrLEN := metadata / 16 % 8
  let keyLenOrKeyId := metadata % 8
  let staticHeaderLength := 1
  let frameCounterLength := ctrLEN + lengthAdjustment
  -- isExtendedKey = !!(metadata & 0x08)
  if metadata / 8 % 2 = 1 then
    let extendedKeyLength := keyLenOrKeyId + lengthAdjustment
    let keyId := ofBytesBEFrom buffer staticHeaderLength extendedKeyLength
    let headerLength := extendedKeyLength + frameCounterLength
    let ctrStartIdx := staticHeaderLength + extendedKeyLength
    { data := jsSlice buffer 0 (headerLength + 1)
      keyId := keyId
      counter := ofBytesBEFrom buffer ctrStartIdx frameCounterLength
      rawCounter := jsSlice buffer ctrStartIdx (ctrStartIdx + frameCounterLength) }
  else
    let keyId := keyLenOrKeyId
    let headerLength := frameCounterLength
    let ctrStartIdx := staticHeaderLength
    { data := jsSlice buffer 0 (headerLength + 1)
      keyId := keyId
      counter := ofBytesBEFrom buffer ctrStartIdx frameCounterLength
      rawCounter := jsSlice buffer ctrStartIdx (ctrStartIdx + frameCounterLength) }

/-- Model of `checkSFrameHeaderKeyId` from `src/SFrameHeader.ts`.  The `keyId < 0`
branch cannot fire for a `Nat`-modelled unsigned key id. -/
def checkSFrameHeaderKeyId (keyId : Nat) : Except JsError Unit :=
  if keyId > SFRAME_HEADER_MAXKEYID then
    .error (.sframe .InvalidHeaderKey
      "keyId must be 8 bytes long at most according to spec")
  else .ok ()

/-- Model of `generateSFrameHeader` from `src/SFrameHeader.ts`.  The metadata byte
`((0 << 3 | ctrLEN & 7) << 1 | X) << 3 | keyLenOrKeyId & 7` is written as
`16 * (ctrLEN % 8) + 8 * X + keyLenOrKeyId % 8`. -/
def generateSFrameHeader (keyId counter : Nat) : Except JsError SFrameHeader :=
  match checkSFrameHeaderKeyId keyId with
  | .error e => .error e
  | .ok _ =>
    -- isExtendedKey = keyId > 7
    let keyLenOrKeyId := if 7 < keyId then calculateKLENorLEN keyId else keyId
    let ctrLEN := calculateKLENorLEN counter
    if 7 < ctrLEN then
      .error (.plain "The length of the CTR fields in bytes must be between 1-8")
    else
      let extendedKeyLength := keyLenOrKeyId + lengthAdjustment
      let frameCounterLength := ctrLEN + lengthAdjustment
      let metadata :=
        16 * (ctrLEN % 8) + (if 7 < keyId then 8 else 0) + keyLenOrKeyId % 8
      let rawCounter := toBytesBE counter frameCounterLength
      let headerData :=
        [metadata] ++ (if 7 < keyId then toBytesBE keyId extendedKeyLength else [])
          ++ rawCounter
      .ok { data := headerData, keyId := keyId, counter := counter,
            rawCounter := rawCounter }

/-- Model of `generateIV` from `src/IV.ts`.  The counter bytes are right-aligned into
a zeroed salt-length buffer, then every byte is XORed with the salt.  A
counter longer than the salt makes the first `setUint8` index negative,
raising a `RangeError` that the source converts to
`InitializationVectorError`. -/
def generateIV (counter salt : List Nat) : Except JsError (List Nat) :=
  if salt.length < counter.length then
    .error (.sframe .InitializationVectorError "IV: RangeError")
  else
    let iv0 := (List.range salt.length).map (fun i =>
      if salt.length - counter.length ≤ i then
        jsGet counter (i - (salt.length - counter.length))
      else 0)
    .ok ((List.zip iv0 salt).map (fun p => p.1 ^^^ p.2))

/-- The four supported suites, from `src/CipherSuite.ts`. -/
inductive CipherSuiteVariant where
  | AES_CM_128_HMAC_SHA256_8
  | AES_CM_128_HMAC_SHA256_4
  | AES_GCM_128_SHA256
  | AES_GCM_256_SHA512
deriving DecidableEq, Repr

/-- Record `CipherSuiteConfig` from `src/CipherSuite.ts`. -/
structure CipherSuiteConfig where
  algorithm : String
  keyAlgorithm : String
  hashAlgorithm : String
  nH : Nat
  nK : Nat
  nN : Nat
  nT : Nat
deriving DecidableEq, Repr

/-- The `AES_CM_128_HMAC_SHA256_8` row of the config table. -/
def cmConfig8 : CipherSuiteConfig :=
  { algorithm := "AES-CTR", keyAlgorithm := "HKDF", hashAlgorithm := "SHA-256",
    nH := 32, nK := 16, nN := 12, nT := 8 }

/-- The `AES_CM_128_HMAC_SHA256_4` row of the config table. -/
def cmConfig4 : CipherSuiteConfig :=
  { algorithm := "AES-CTR", keyAlgorithm := "HKDF", hashAlgorithm := "SHA-256",
    nH := 32, nK := 16, nN := 12, nT := 4 }

/-- The `AES_GCM_128_SHA256` row of the config table. -/
def gcmConfig128 : CipherSuiteConfig :=
  { algorithm := "AES-GCM", keyAlgorithm := "HKDF", hashAlgorithm := "SHA-256",
    nH := 32, nK := 16, nN := 12, nT := 8 }

/-- The `AES_GCM_256_SHA512` row of the config table. -/
def gcmConfig256 : CipherSuiteConfig :=
  { algorithm := "AES-GCM", keyAlgorithm := "HKDF", hashAlgorithm := "SHA-512",
    nH := 64, nK := 32, nN := 12, nT := 16 }

/-- Model of `getCipherSuiteConfig` from `src/CipherSuite.ts`. -/
def getCipherSuiteConfig : CipherSuiteVariant → Option CipherSuiteConfig
  | .AES_CM_128_HMAC_SHA256_8 => some cmConfig8
  | .AES_CM_128_HMAC_SHA256_4 => some cmConfig4
  | .AES_GCM_128_SHA256 => some gcmConfig128
  | .AES_GCM_256_SHA512 => some gcmConfig256

/-- Modelled from the spec: the AEAD primitive behind `crypto.subtle.encrypt`
and `crypto.subtle.decrypt` and the HMAC behind `crypto.subtle.sign` are
WebCrypto platform functions, not repository code.  For a fixed installed key
they are modelled as arbitrary deterministic functions satisfying the laws the
spec relies on: the ciphertext core is length-regular (spec §4.4 — the payload
size for AES-CTR, and possibly including the native GCM tag for AES-GCM, so
the expansion is a parameter of the model), decryption inverts encryption
under the same IV and additional data, and HMAC-SHA-256 output is 32 bytes. -/
structure AEADModel where
  expansion : Nat
  enc : List Nat → List Nat → List Nat → List Nat
  dec : List Nat → List Nat → List Nat → Except JsError (List Nat)
  hmacSign : List Nat → List Nat
  enc_length : ∀ iv ad pt, (enc iv ad pt).length = pt.length + expansion
  dec_enc : ∀ iv ad pt, dec iv ad (enc iv ad pt) = .ok pt
  hmac_length : ∀ d, (hmacSign d).length = 32

/-- The `SFrameCrypto` class from `src/SFrameCrypto.ts`: a cipher-suite
instance.  The derived WebCrypto key objects are baked into `prim`; the
derived 12-byte salt is `saltKey`. -/

structure SFrameCrypto where
  prim : AEADModel
  saltKey : List Nat
  config : CipherSuiteConfig

/-- Model of `SFrameCrypto.encrypt` from `src/SFrameCrypto.ts`.  Note that the whole
`payload` (including any skip prefix) is handed to the AEAD primitive. -/
def SFrameCrypto.encrypt (k : SFrameCrypto) (header : SFrameHeader)
    (payload : List Nat) (skip : Nat) : Except JsError (List Nat × List Nat) :=
  match generateIV header.rawCounter k.saltKey with
  | .error e => .error e
  | .ok iv =>
    let encrypted := k.prim.enc iv header.data payload
    let authTagLength := k.config.nT
    let frameSize := header.data.length + encrypted.length + authTagLength + skip
    let frame0 := List.replicate frameSize 0
    match jsSet frame0 header.data skip with
    | none => .error (.sframe .EncryptionFailure "encrypt: encryptedFrame.set: ")
    | some frame1 =>
      match jsSet frame1 encrypted (skip + header.data.length) with
      | none => .error (.sframe .EncryptionFailure "encrypt: encryptedFrame.set: ")
      | some frame2 =>
        let authCode := k.prim.hmacSign
          (jsSlice frame2 skip (skip + header.data.length + encrypted.length))
        let authTag := jsSlice authCode 0 authTagLength
        match jsSet frame2 authTag (skip + encrypted.length + header.data.length) with
        | none => .error (.sframe .AuthenticationError "encrypt: authTag: ")
        | some frame3 => .ok (frame3, authTag)

/-- Model of `SFrameCrypto.decrypt` from `src/SFrameCrypto.ts`.  Truncated `Nat`
subtraction models the in-range case (`frameLength ≥ nT`), which is the only
one any caller reaches with a well-formed frame. -/
def SFrameCrypto.decrypt (k : SFrameCrypto) (header : SFrameHeader)
    (encryptedFrame : List Nat) (skip : Nat) : Except JsError (List Nat × List Nat) :=
  match generateIV header.rawCounter k.saltKey with
  | .error e => .error e
  | .ok iv =>
    let authTagLength := k.config.nT
    let frameLength := encryptedFrame.length - skip
    let authTag := jsSlice encryptedFrame
      (skip + frameLength - authTagLength) (skip + frameLength)
    let encryptedPayload := jsSlice encryptedFrame
      (skip + header.data.length) (skip + frameLength - authTagLength)
    let authCode := k.prim.hmacSign
      (jsSlice encryptedFrame skip (skip + header.data.length + encryptedPayload.length))
    -- constant-time comparison loop over all nT bytes
    let authenticated := (List.range authTagLength).all
      (fun i => jsGet authTag i == jsGet authCode i)
    if authenticated then
      match k.prim.dec iv header.data encryptedPayload with
      | .error e => .error e
      | .ok payload => .ok (payload, authTag)
    else .error (.plain "Authentication error")

/-- JavaScript `counter++` on an integer-valued double: exact below `2^53`;
at `2^53` the true sum `2^53 + 1` is not representable and rounds back to
`2^53`, so the stored counter stops changing.  States above `2^53` are
unreachable from 0 by increments and are modelled as fixed points too. -/
def jsNumSucc (n : Nat) : Nat := if n < 2 ^ 53 then n + 1 else n

/-- The `Sender` class state from `src/Sender.ts`. -/
structure Sender where
  counter : Nat
  key : Option SFrameCrypto
  senderId : Nat

/-- Model of `Sender.encrypt` from `src/Sender.ts`, with the state passed explicitly:
the returned `Sender` carries the post-incremented counter. -/
def Sender.encrypt (s : Sender) (payloadToBeEncrypted : List Nat) (skip : Nat) :
    Except JsError (List Nat × Sender) :=
  match s.key with
  | none => .error (.sframe .InvalidKey "Encryption key not set")
  | some key =>
    let counter := s.counter
    let s' : Sender := { s with counter := jsNumSucc s.counter }
    match generateSFrameHeader s.senderId counter with
    | .error e => .error e
    | .ok header =>
      match key.encrypt header payloadToBeEncrypted skip with
      | .error e => .error e
      | .ok (encryptedFrame, _) =>
        if skip ≠ 0 then
          match jsSet encryptedFrame (jsSlice payloadToBeEncrypted 0 skip) 0 with
          | none => .error (.plain "RangeError")
          | some out => .ok (out, s')
        else .ok (encryptedFrame, s')

/-- Constant `ReplayWindow` from `src/Receiver.ts`. -/
def ReplayWindow : Nat := 128

/-- The `Receiver` class state from `src/Receiver.ts`
(`maxReceivedCounter` starts at `-1`, hence `Int`). -/
structure Receiver where
  maxReceivedCounter : Int
  keyring : List SFrameCrypto

/-- Model of `Receiver.checkForReplayAttack` from `src/Receiver.ts`. -/
def Receiver.checkForReplayAttack (r : Receiver) (header : SFrameHeader) :
    Except JsError Unit :=
  if (header.counter : Int) < r.maxReceivedCounter ∧
      r.maxReceivedCounter - (header.counter : Int) > (ReplayWindow : Int) then
    .error (.sframe .ReplayAttackError "Replay check failed, frame counter too old")
  else .ok ()

/-- The key-trying loop of `Receiver.decrypt`: first key whose `decrypt`
succeeds; per-key failures are swallowed. -/
def tryKeyring : List SFrameCrypto → SFrameHeader → List Nat → Nat →
    Option (List Nat × List Nat)
  | [], _, _, _ => none
  | k :: ks, header, frame, skip =>
    match k.decrypt header frame skip with
    | .ok res => some res
    | .error _ => tryKeyring ks header frame skip

/-- Model of `Receiver.decrypt` from `src/Receiver.ts`, state passed explicitly.  The
defensive keyring snapshot (taken when more than one key is present) is the
identity in this sequential model. -/
def Receiver.decrypt (r : Receiver) (header : SFrameHeader)
    (encryptedFrame : List Nat) (skip : Nat) :
    Except JsError (List Nat × Receiver) :=
  match r.checkForReplayAttack header with
  | .error e => .error e
  | .ok _ =>
    match tryKeyring r.keyring header encryptedFrame skip with
    | none => .error (.sframe .DecryptionFailure "Decryption failed")
    | some (decryptedFrame, _) =>
      let withSkip :=
        if skip ≠ 0 then jsSet decryptedFrame (jsSlice encryptedFrame 0 skip) 0
        else some decryptedFrame
      match withSkip with
      | none => .error (.plain "RangeError")
      | some out =>
        let newMax := max (header.counter : Int) r.maxReceivedCounter
        .ok (out, { r with maxReceivedCounter := newMax })

/-- A `MediaFrame` from `src/Types.ts`. -/
structure MediaFrame where
  data : List Nat
  headerLength : Nat

/-- The `Context` class state from `src/Context.ts`; the receiver `Map` is an
association list with unique keys. -/
structure Context where
  sender : Option Sender
  receivers : List (Nat × Receiver)

/-- Model of `Context.readKeyId` from `src/Context.ts`. -/
def Context.readKeyId (_c : Context) (frame : MediaFrame) : Nat :=
  (parseSFrameHeader (List.drop frame.headerLength frame.data)).keyId

/-- Model of `Context.encrypt` from `src/Context.ts`, state passed explicitly. -/
def Context.encrypt (c : Context) (frame : List Nat) (skip : Nat) :
    Except JsError (List Nat × Context) :=
  match c.sender with
  | none => .error (.sframe .EncryptionFailure "No sender set")
  | some s =>
    match s.encrypt frame skip with
    | .error e => .error e
    | .ok (out, s') => .ok (out, { c with sender := some s' })

/-- Model of `Context.decrypt` from `src/Context.ts`, state passed explicitly; the
receiver mutated in place by the source is replaced in the map. -/
def Context.decrypt (c : Context) (encryptedFrame : List Nat) (skip : Nat) :
    Except JsError (List Nat × Context) :=
  let header := parseSFrameHeader (List.drop skip encryptedFrame)
  match List.lookup header.keyId c.receivers with
  | none => .error (.sframe .InvalidKey
      ("No receiver found for keyId " ++ toString header.keyId))
  | some receiver =>
    match receiver.decrypt header encryptedFrame skip with
    | .error e => .error e
    | .ok (out, r') =>
      let updated := c.receivers.map
        (fun p => if p.1 = header.keyId then (p.1, r') else p)
      .ok (out, { c with receivers := updated })

/-- A minimal concrete AEAD instance for witnesses: the identity cipher with
a constant 32-byte MAC and no length expansion (the AES-CTR shape).  Because
encryption is the identity, the bytes it is applied to are visible verbatim
in the frame. -/
def idAEAD : AEADModel where
  expansion := 0
  enc := fun _ _ pt => pt
  dec := fun _ _ ct => .ok ct
  hmacSign := fun _ => List.replicate 32 0
  enc_length := by intro iv ad pt; simp
  dec_enc := by intro iv ad pt; rfl
  hmac_length := by intro d; simp

/-- A concrete AEAD instance with the WebCrypto AES-GCM length behaviour:
the native 16-byte GCM tag (default 128-bit tagLength) is appended to the
ciphertext, so the ciphertext core is 16 bytes longer than the plaintext. -/
def gcmLikeAEAD : AEADModel where
  expansion := 16
  enc := fun _ _ pt => pt ++ List.replicate 16 0
  dec := fun _ _ ct => .ok (ct.take (ct.length - 16))
  hmacSign := fun _ => List.replicate 32 0
  enc_length := by intro iv ad pt; simp
  dec_enc := by intro iv ad pt; simp
  hmac_length := by intro d; simp

/-- The cipher-suite instance used by the concrete scenarios:
identity AEAD, all-zero 12-byte salt, `AES_CM_128_HMAC_SHA256_4` config. -/
def scenarioCrypto : SFrameCrypto :=
  { prim := idAEAD, saltKey := List.replicate 12 0, config := cmConfig4 }

/-- A fresh sender with `scenarioCrypto` installed and senderId 0. -/
def scenarioSender : Sender :=
  { counter := 0, key := some scenarioCrypto, senderId := 0 }

/-- A context holding one fresh receiver for keyId 0 with `scenarioCrypto`
in its keyring. -/
def scenarioCtx : Context :=
  { sender := none,
    receivers := [(0, { maxReceivedCounter := -1, keyring := [scenarioCrypto] })] }

/-- The 200 frames of the replay-window scenario: one sender encrypting the
payload `[7]` 200 times, carrying counters 0..199. -/
def scenarioFrames : List (List Nat) :=
  ((List.range 200).foldl (fun (st : Sender × List (List Nat)) _ =>
      match Sender.encrypt st.1 [7] 0 with
      | .ok (f, s) => (s, st.2 ++ [f])
      | .error _ => (st.1, st.2)) (scenarioSender, [])).2

/-- Classify a decrypt outcome: 0 = success, 1 = `ReplayAttackError`,
2 = any other error. -/
def classifyOutcome : Except JsError (List Nat × Context) → Nat
  | .ok _ => 0
  | .error (.sframe .ReplayAttackError _) => 1
  | .error _ => 2

/-- Decrypt the 200 scenario frames in reverse order (counters 199 down
to 0) against one receiver, recording each outcome. -/
def scenarioResults : List Nat :=
  (scenarioFrames.reverse.foldl (fun (st : Context × List Nat) f =>
      match Context.decrypt st.1 f 0 with
      | .ok (_, c) => (c, st.2 ++ [0])
      | .error e => (st.1, st.2 ++ [classifyOutcome (.error e)]))
    (scenarioCtx, [])).2

/-- A sender whose counter has reached `2^53`
(`Number.MAX_SAFE_INTEGER + 1`), the first state at which the JavaScript
increment stalls. -/
def stallSender : Sender :=
  { counter := 2 ^ 53, key := some scenarioCrypto, senderId := 0 }

/-- Minimality of a byte length: `L` is the minimal big-endian byte
length of `n` (counter 0 takes
1 byte): `n` fits in `L` bytes and no shorter non-empty encoding exists.
Equivalent to the spec formula `max(1, ceil(log2(n+1)/8))`. -/
def isMinimalBE (n L : Nat) : Prop := n < 256 ^ L ∧ (L = 1 ∨ 256 ^ (L - 1) ≤ n)

/-- Minimality of a byte length is decidable, so concrete instances can be
settled by `decide`. -/
instance (n L : Nat) : Decidable (isMinimalBE n L) :=
  decidable_of_iff (n < 256 ^ L ∧ (L = 1 ∨ 256 ^ (L - 1) ≤ n)) Iff.rfl

/-- Decidable equality for `Except`, so concrete outcomes can be settled
by `decide`. -/
instance {e a : Type} [DecidableEq e] [DecidableEq a] :
    DecidableEq (Except e a) := fun x y =>
  match x, y with
  | .ok v, .ok w =>
    if h : v = w then .isTrue (by rw [h])
    else .isFalse (by intro hc; injection hc; contradiction)
  | .error v, .error w =>
    if h : v = w then .isTrue (by rw [h])
    else .isFalse (by intro hc; injection hc; contradiction)
  | .ok _, .error _ => .isFalse (by intro hc; cases hc)
  | .error _, .ok _ => .isFalse (by intro hc; cases hc)

theorem log256Fuel_pow_le (fuel : Nat) : ∀ i : Nat, 0 < i → i < 256 ^ fuel →
    256 ^ log256Fuel fuel i ≤ i := by
  induction fuel with
  | zero => intro i h0 h1; simp at h1; omega
  | succ fuel ih =>
    intro i h0 h1
    rw [log256Fuel]
    by_cases hsmall : i < 256
    · simp [hsmall]; omega
    · rw [if_neg hsmall]
      have hdivpos : 0 < i / 256 := Nat.div_pos (by omega) (by norm_num)
      have hdivlt : i / 256 < 256 ^ fuel := by
        rw [Nat.div_lt_iff_lt_mul (by norm_num)]
        calc i < 256 ^ (fuel + 1) := h1
        _ = 256 ^ fuel * 256 := by ring
      have := ih (i / 256) hdivpos hdivlt
      calc 256 ^ (log256Fuel fuel (i / 256) + 1)
          = 256 ^ log256Fuel fuel (i / 256) * 256 := by ring
        _ ≤ (i / 256) * 256 := by exact Nat.mul_le_mul_right 256 this
        _ ≤ i := by
            have := Nat.div_mul_le_self i 256
            omega

theorem log256Fuel_lt_pow (fuel : Nat) : ∀ i : Nat, i < 256 ^ fuel →
    i < 256 ^ (log256Fuel fuel i + 1) := by
  induction fuel with
  | zero => intro i h1; simp at h1; subst h1; simp [log256Fuel]
  | succ fuel ih =>
    intro i h1
    rw [log256Fuel]
    by_cases hsmall : i < 256
    · simp [hsmall]
    · rw [if_neg hsmall]
      have hdivlt : i / 256 < 256 ^ fuel := by
        rw [Nat.div_lt_iff_lt_mul (by norm_num)]
        calc i < 256 ^ (fuel + 1) := h1
        _ = 256 ^ fuel * 256 := by ring
      have := ih (i / 256) hdivlt
      have hstep : i < (i / 256 + 1) * 256 := by
        have := Nat.div_mul_le_self i 256
        have := Nat.mod_lt i (show 0 < 256 by norm_num)
        have := Nat.div_add_mod i 256
        omega
      calc i < (i / 256 + 1) * 256 := hstep
        _ ≤ 256 ^ (log256Fuel fuel (i / 256) + 1) * 256 := by
            exact Nat.mul_le_mul_right 256 (by omega)
        _ = 256 ^ (log256Fuel fuel (i / 256) + 1 + 1) := by ring

theorem calculateKLENorLEN_lt_pow {i : Nat} (h128 : i < 256 ^ 128) :
    i < 256 ^ (calculateKLENorLEN i + 1) := by
  rw [calculateKLENorLEN]
  split_ifs with h1 h2 h3 h4 h5 h6 h7 h8
  · exact lt_of_lt_of_le h1 (by norm_num)
  · exact lt_of_lt_of_le h2 (by norm_num)
  · exact lt_of_lt_of_le h3 (by norm_num)
  · exact lt_of_lt_of_le h4 (by norm_num)
  · exact lt_of_lt_of_le h5 (by norm_num)
  · exact lt_of_lt_of_le h6 (by norm_num)
  · exact lt_of_lt_of_le h7 (by norm_num)
  · exact lt_of_lt_of_le h8 (by norm_num)
  · have hfuel := log256Fuel_lt_pow 128 i h128
    have hle : log256Fuel 128 i + 1 ≤ max 8 (log256Fuel 128 i) + 1 := by
      omega
    exact lt_of_lt_of_le hfuel (Nat.pow_le_pow_right (by norm_num) hle)

theorem calculateKLENorLEN_pow_pred_le {i : Nat} (h128 : i < 256 ^ 128)
    (h0 : 0 < calculateKLENorLEN i) :
    256 ^ (calculateKLENorLEN i - 1) ≤ i := by
  rw [calculateKLENorLEN] at h0 ⊢
  split_ifs at h0 ⊢ with h1 h2 h3 h4 h5 h6 h7 h8
  · omega
  · calc (256 : Nat) ^ (1 - 1) ≤ 256 := by norm_num
      _ ≤ i := not_lt.mp h1
  · calc (256 : Nat) ^ (2 - 1) ≤ 65536 := by norm_num
      _ ≤ i := not_lt.mp h2
  · calc (256 : Nat) ^ (3 - 1) ≤ 16777216 := by norm_num
      _ ≤ i := not_lt.mp h3
  · calc (256 : Nat) ^ (4 - 1) ≤ 4294967296 := by norm_num
      _ ≤ i := not_lt.mp h4
  · calc (256 : Nat) ^ (5 - 1) ≤ 1099511627776 := by norm_num
      _ ≤ i := not_lt.mp h5
  · calc (256 : Nat) ^ (6 - 1) ≤ 281474976710655 := by norm_num
      _ ≤ i := not_lt.mp h6
  · calc (256 : Nat) ^ (7 - 1) ≤ 72057594037927525 := by norm_num
      _ ≤ i := not_lt.mp h7
  · have := not_lt.mp h8
    by_cases hbig : log256Fuel 128 i ≤ 8
    · rw [Nat.max_eq_left hbig]
      calc (256 : Nat) ^ (8 - 1) ≤ 18446744073709458433 := by norm_num
        _ ≤ i := this
    · rw [Nat.max_eq_right (by omega)]
      have hpos : 0 < i := by omega
      have hle := log256Fuel_pow_le 128 i hpos h128
      calc (256 : Nat) ^ (log256Fuel 128 i - 1)
          ≤ 256 ^ log256Fuel 128 i := Nat.pow_le_pow_right (by norm_num)
            (by omega)
        _ ≤ i := hle

theorem toBytesBE_length (v len : Nat) : (toBytesBE v len).length = len := by
  simp [toBytesBE]

theorem toBytesBE_succ (v len : Nat) :
    toBytesBE v (len + 1) = (v / 256 ^ len % 256) :: toBytesBE v len := by
  simp [toBytesBE, List.range_succ]

theorem foldl_mul_add (bs : List Nat) : ∀ a : Nat,
    bs.foldl (fun acc b => acc * 256 + b) a = a * 256 ^ bs.length + ofBytesBE bs := by
  induction bs with
  | nil => intro a; simp [ofBytesBE]
  | cons b bs ih =>
    intro a
    simp only [List.foldl_cons, List.length_cons, ofBytesBE, Nat.zero_mul,
      Nat.zero_add]
    rw [ih (a * 256 + b), ih b]
    ring

theorem mod_pow_succ_eq (v l : Nat) :
    v % 256 ^ (l + 1) = (v / 256 ^ l % 256) * 256 ^ l + v % 256 ^ l := by
  have hpow : 0 < (256 : Nat) ^ l := Nat.pos_pow_of_pos l (by norm_num)
  have hdm := Nat.div_add_mod v (256 ^ l)
  have hdm2 := Nat.div_add_mod (v / 256 ^ l) 256
  have hrlt : v % 256 ^ l < 256 ^ l := Nat.mod_lt v hpow
  have hqlt : v / 256 ^ l % 256 < 256 := Nat.mod_lt _ (by norm_num)
  have hsum : (v / 256 ^ l % 256) * 256 ^ l + v % 256 ^ l < 256 ^ (l + 1) := by
    have h1 : (v / 256 ^ l % 256) * 256 ^ l ≤ 255 * 256 ^ l :=
      Nat.mul_le_mul_right _ (by omega)
    have : (256 : Nat) ^ (l + 1) = 256 * 256 ^ l := by ring
    omega
  have hv : v = (v / 256 ^ l / 256) * 256 ^ (l + 1)
      + ((v / 256 ^ l % 256) * 256 ^ l + v % 256 ^ l) := by
    have : (256 : Nat) ^ (l + 1) = 256 * 256 ^ l := by ring
    calc v = v / 256 ^ l * 256 ^ l + v % 256 ^ l := by
          rw [Nat.mul_comm]; exact (Nat.div_add_mod v (256 ^ l)).symm
      _ = (256 * (v / 256 ^ l / 256) + v / 256 ^ l % 256) * 256 ^ l
            + v % 256 ^ l := by rw [Nat.div_add_mod]
      _ = (v / 256 ^ l / 256) * (256 * 256 ^ l)
            + ((v / 256 ^ l % 256) * 256 ^ l + v % 256 ^ l) := by ring
      _ = _ := by rw [this]
  calc v % 256 ^ (l + 1)
      = ((v / 256 ^ l / 256) * 256 ^ (l + 1)
          + ((v / 256 ^ l % 256) * 256 ^ l + v % 256 ^ l)) % 256 ^ (l + 1) := by
        rw [← hv]
    _ = ((v / 256 ^ l % 256) * 256 ^ l + v % 256 ^ l) % 256 ^ (l + 1) := by
        rw [Nat.mul_comm, Nat.mul_add_mod]
    _ = (v / 256 ^ l % 256) * 256 ^ l + v % 256 ^ l := Nat.mod_eq_of_lt hsum

theorem ofBytesBE_toBytesBE (v : Nat) : ∀ len : Nat,
    ofBytesBE (toBytesBE v len) = v % 256 ^ len := by
  intro len
  induction len with
  | zero => simp [toBytesBE, ofBytesBE, Nat.mod_one]
  | succ len ih =>
    rw [toBytesBE_succ]
    simp only [ofBytesBE, List.foldl_cons, Nat.zero_mul, Nat.zero_add]
    rw [foldl_mul_add, toBytesBE_length]
    show _ * 256 ^ len + ofBytesBE (toBytesBE v len) = _
    rw [ih, mod_pow_succ_eq]

theorem ofBytesBE_toBytesBE_of_lt {v len : Nat} (h : v < 256 ^ len) :
    ofBytesBE (toBytesBE v len) = v := by
  rw [ofBytesBE_toBytesBE, Nat.mod_eq_of_lt h]

theorem jsGet_append_right (pre l : List Nat) (i : Nat) :
    jsGet (pre ++ l) (pre.length + i) = jsGet l i := by
  simp [jsGet, List.getD, List.getElem?_append_right]

theorem ofBytesBEFrom_extract (pre mid post : List Nat) :
    ofBytesBEFrom (pre ++ mid ++ post) pre.length mid.length = ofBytesBE mid := by
  have hmap : (List.range mid.length).map
      (fun i => jsGet (pre ++ mid ++ post) (pre.length + i)) = mid := by
    apply List.ext_getElem
    · simp
    · intro i h1 h2
      simp only [List.getElem_map, List.getElem_range]
      rw [List.append_assoc, jsGet_append_right]
      have hi : i < mid.length := by simpa using h2
      simp [jsGet, List.getD, List.getElem?_append_left hi,
        List.getElem?_eq_getElem hi]
  calc ofBytesBEFrom (pre ++ mid ++ post) pre.length mid.length
      = ((List.range mid.length).map
          (fun i => jsGet (pre ++ mid ++ post) (pre.length + i))).foldl
            (fun acc b => acc * 256 + b) 0 := by
        rw [ofBytesBEFrom, List.foldl_map]
    _ = ofBytesBE mid := by rw [hmap, ofBytesBE]

theorem jsSlice_extract (pre mid post : List Nat) :
    jsSlice (pre ++ mid ++ post) pre.length (pre.length + mid.length) = mid := by
  rw [jsSlice, List.append_assoc, List.take_append, List.take_left,
    List.drop_left]

theorem jsSlice_zero (l : List Nat) (n : Nat) : jsSlice l 0 n = l.take n := by
  simp [jsSlice]

theorem generate_eq (kid ctr : Nat) (hk : kid ≤ SFRAME_HEADER_MAXKEYID)
    (hLEN : calculateKLENorLEN ctr ≤ 7)
    (hK : (if 7 < kid then calculateKLENorLEN kid else kid) ≤ 7) :
    generateSFrameHeader kid ctr = .ok
      { data := [16 * calculateKLENorLEN ctr + (if 7 < kid then 8 else 0)
            + (if 7 < kid then calculateKLENorLEN kid else kid)]
          ++ (if 7 < kid then toBytesBE kid (calculateKLENorLEN kid + 1) else [])
          ++ toBytesBE ctr (calculateKLENorLEN ctr + 1),
        keyId := kid, counter := ctr,
        rawCounter := toBytesBE ctr (calculateKLENorLEN ctr + 1) } := by
  unfold generateSFrameHeader checkSFrameHeaderKeyId
  rw [if_neg (show ¬ kid > SFRAME_HEADER_MAXKEYID by omega)]
  simp only [lengthAdjustment]
  rw [if_neg (show ¬ 7 < calculateKLENorLEN ctr by omega)]
  have hmodL : calculateKLENorLEN ctr % 8 = calculateKLENorLEN ctr :=
    Nat.mod_eq_of_lt (by omega)
  have hmodK : (if 7 < kid then calculateKLENorLEN kid else kid) % 8
      = (if 7 < kid then calculateKLENorLEN kid else kid) :=
    Nat.mod_eq_of_lt (by omega)
  by_cases hkid : 7 < kid
  · simp only [if_pos hkid] at hmodK ⊢
    rw [hmodL, hmodK]
  · simp only [if_neg hkid] at hmodK ⊢
    rw [hmodL, hmodK]

theorem parse_shape_ext (L K : Nat) (kidB ctrB rest : List Nat)
    (hL : L ≤ 7) (hK : K ≤ 7)
    (hkidB : kidB.length = K + 1) (hctrB : ctrB.length = L + 1) :
    parseSFrameHeader (((16 * L + 8 + K) :: (kidB ++ ctrB)) ++ rest) =
      { data := (16 * L + 8 + K) :: (kidB ++ ctrB),
        keyId := ofBytesBE kidB, counter := ofBytesBE ctrB, rawCounter := ctrB } := by
  have hm0 : jsGet (((16 * L + 8 + K) :: (kidB ++ ctrB)) ++ rest) 0
      = 16 * L + 8 + K := rfl
  have hdiv16 : (16 * L + 8 + K) / 16 % 8 = L := by omega
  have hdiv8 : (16 * L + 8 + K) / 8 % 2 = 1 := by omega
  have hmod8 : (16 * L + 8 + K) % 8 = K := by omega
  have hshape : ((16 * L + 8 + K) :: (kidB ++ ctrB)) ++ rest
      = [16 * L + 8 + K] ++ kidB ++ (ctrB ++ rest) := by simp
  have hkeyId : ofBytesBEFrom (((16 * L + 8 + K) :: (kidB ++ ctrB)) ++ rest)
      1 (K + 1) = ofBytesBE kidB := by
    rw [hshape, ← hkidB]
    exact ofBytesBEFrom_extract [16 * L + 8 + K] kidB (ctrB ++ rest)
  have hshape2 : ((16 * L + 8 + K) :: (kidB ++ ctrB)) ++ rest
      = ((16 * L + 8 + K) :: kidB) ++ ctrB ++ rest := by simp
  have hlen2 : ((16 * L + 8 + K) :: kidB).length = K + 2 := by simp [hkidB]
  have hctr : ofBytesBEFrom (((16 * L + 8 + K) :: (kidB ++ ctrB)) ++ rest)
      (K + 2) (L + 1) = ofBytesBE ctrB := by
    rw [hshape2, ← hlen2, ← hctrB]
    exact ofBytesBEFrom_extract ((16 * L + 8 + K) :: kidB) ctrB rest
  have hraw : jsSlice (((16 * L + 8 + K) :: (kidB ++ ctrB)) ++ rest)
      (K + 2) (K + 2 + (L + 1)) = ctrB := by
    rw [hshape2, ← hlen2, ← hctrB]
    exact jsSlice_extract ((16 * L + 8 + K) :: kidB) ctrB rest
  have hdata : jsSlice (((16 * L + 8 + K) :: (kidB ++ ctrB)) ++ rest)
      0 (K + 1 + (L + 1) + 1) = (16 * L + 8 + K) :: (kidB ++ ctrB) := by
    rw [jsSlice_zero]
    exact List.take_left' (by simp [hkidB, hctrB])
  simp only [parseSFrameHeader, hm0, hdiv16, hdiv8, hmod8, lengthAdjustment]
  rw [if_pos trivial]
  rw [show (1 : Nat) + (K + 1) = K + 2 from by omega]
  rw [hkeyId, hctr, hraw, hdata]

theorem parse_shape_basic (L K : Nat) (ctrB rest : List Nat)
    (hL : L ≤ 7) (hK : K ≤ 7) (hctrB : ctrB.length = L + 1) :
    parseSFrameHeader (((16 * L + K) :: ctrB) ++ rest) =
      { data := (16 * L + K) :: ctrB,
        keyId := K, counter := ofBytesBE ctrB, rawCounter := ctrB } := by
  have hm0 : jsGet (((16 * L + K) :: ctrB) ++ rest) 0 = 16 * L + K := rfl
  have hdiv16 : (16 * L + K) / 16 % 8 = L := by omega
  have hdiv8 : ¬ ((16 * L + K) / 8 % 2 = 1) := by omega
  have hmod8 : (16 * L + K) % 8 = K := by omega
  have hshape : ((16 * L + K) :: ctrB) ++ rest
      = [16 * L + K] ++ ctrB ++ rest := by simp
  have hctr : ofBytesBEFrom (((16 * L + K) :: ctrB) ++ rest) 1 (L + 1)
      = ofBytesBE ctrB := by
    rw [hshape, ← hctrB]
    exact ofBytesBEFrom_extract [16 * L + K] ctrB rest
  have hraw : jsSlice (((16 * L + K) :: ctrB) ++ rest) 1 (1 + (L + 1)) = ctrB := by
    rw [hshape, ← hctrB]
    exact jsSlice_extract [16 * L + K] ctrB rest
  have hdata : jsSlice (((16 * L + K) :: ctrB) ++ rest) 0 (L + 1 + 1)
      = (16 * L + K) :: ctrB := by
    rw [jsSlice_zero]
    exact List.take_left' (by simp [hctrB])
  simp only [parseSFrameHeader, hm0, hdiv16, hmod8, lengthAdjustment]
  rw [if_neg hdiv8]
  rw [hctr, hraw, hdata]

theorem ctrLEN_le_seven {ctr : Nat} (hc : ctr < counterOverflowThreshold) :
    calculateKLENorLEN ctr ≤ 7 := by
  rw [counterOverflowThreshold] at hc
  rw [calculateKLENorLEN]
  split_ifs <;> omega

theorem keyLen_le_six {kid : Nat} (hk : kid ≤ SFRAME_HEADER_MAXKEYID) :
    calculateKLENorLEN kid ≤ 6 := by
  have h1 : SFRAME_HEADER_MAXKEYID = 9007199254740991 := by
    norm_num [SFRAME_HEADER_MAXKEYID]
  rw [h1] at hk
  rw [calculateKLENorLEN]
  split_ifs <;> omega

theorem counterOverflowThreshold_lt : counterOverflowThreshold < 256 ^ 128 := by
  rw [counterOverflowThreshold]
  calc (18446744073709458433 : Nat) < 256 ^ 8 := by norm_num
    _ ≤ 256 ^ 128 := Nat.pow_le_pow_right (by norm_num) (by norm_num)

theorem parse_generate (kid ctr : Nat) (rest : List Nat)
    (hk : kid ≤ SFRAME_HEADER_MAXKEYID) (hc : ctr < counterOverflowThreshold) :
    ∃ h, generateSFrameHeader kid ctr = .ok h ∧
      h.keyId = kid ∧ h.counter = ctr ∧
      h.rawCounter = toBytesBE ctr (calculateKLENorLEN ctr + 1) ∧
      h.data.length = (if 7 < kid then calculateKLENorLEN kid + 1 else 0)
        + calculateKLENorLEN ctr + 2 ∧
      parseSFrameHeader (h.data ++ rest) =
        { data := h.data, keyId := kid, counter := ctr, rawCounter := h.rawCounter } := by
  have hLEN : calculateKLENorLEN ctr ≤ 7 := ctrLEN_le_seven hc
  have hfitc : ctr < 256 ^ 128 := lt_trans hc counterOverflowThreshold_lt
  have hfitk : kid < 256 ^ 128 := by
    have h1 : SFRAME_HEADER_MAXKEYID < 256 ^ 8 := by norm_num [SFRAME_HEADER_MAXKEYID]
    have h2 : (256 : Nat) ^ 8 ≤ 256 ^ 128 :=
      Nat.pow_le_pow_right (by norm_num) (by norm_num)
    omega
  have hK : (if 7 < kid then calculateKLENorLEN kid else kid) ≤ 7 := by
    by_cases hkid : 7 < kid
    · simp only [if_pos hkid]
      have := keyLen_le_six hk
      omega
    · simp only [if_neg hkid]
      omega
  have hgen := generate_eq kid ctr hk hLEN hK
  have hctrB : (toBytesBE ctr (calculateKLENorLEN ctr + 1)).length
      = calculateKLENorLEN ctr + 1 := toBytesBE_length _ _
  have hctrVal : ofBytesBE (toBytesBE ctr (calculateKLENorLEN ctr + 1)) = ctr :=
    ofBytesBE_toBytesBE_of_lt (calculateKLENorLEN_lt_pow hfitc)
  by_cases hkid : 7 < kid
  · have hkidB : (toBytesBE kid (calculateKLENorLEN kid + 1)).length
        = calculateKLENorLEN kid + 1 := toBytesBE_length _ _
    have hkidVal : ofBytesBE (toBytesBE kid (calculateKLENorLEN kid + 1)) = kid :=
      ofBytesBE_toBytesBE_of_lt (calculateKLENorLEN_lt_pow hfitk)
    simp only [if_pos hkid] at hgen hK
    refine ⟨_, hgen, rfl, rfl, rfl, ?_, ?_⟩
    · simp [hkidB, hctrB, if_pos hkid]
      omega
    · have hparse := parse_shape_ext (calculateKLENorLEN ctr) (calculateKLENorLEN kid)
        (toBytesBE kid (calculateKLENorLEN kid + 1))
        (toBytesBE ctr (calculateKLENorLEN ctr + 1)) rest hLEN hK hkidB hctrB
      simp only [List.singleton_append, List.cons_append, List.nil_append]
        at hparse ⊢
      rw [hparse, hkidVal, hctrVal]
  · simp only [if_neg hkid] at hgen hK
    refine ⟨_, hgen, rfl, rfl, rfl, ?_, ?_⟩
    · simp [hctrB, if_neg hkid]
    · have hparse := parse_shape_basic (calculateKLENorLEN ctr) kid
        (toBytesBE ctr (calculateKLENorLEN ctr + 1)) rest hLEN hK hctrB
      have hmeta : 16 * calculateKLENorLEN ctr + 0 + kid
          = 16 * calculateKLENorLEN ctr + kid := by omega
      simp only [List.singleton_append, List.cons_append, List.nil_append,
        hmeta] at hparse ⊢
      rw [hparse, hctrVal]

theorem jsSet_fit (a b c src : List Nat) (h : src.length = b.length) :
    jsSet (a ++ b ++ c) src a.length = some (a ++ src ++ c) := by
  have ht : (a ++ b ++ c).take a.length = a := by
    rw [List.append_assoc]
    exact List.take_left a (b ++ c)
  have hd : (a ++ b ++ c).drop (a.length + src.length) = c := by
    rw [h, show a.length + b.length = (a ++ b).length from (List.length_append a b).symm]
    exact List.drop_left (a ++ b) c
  rw [jsSet, if_pos (by simp [h]), ht, hd]

theorem jsSet_fitAt (a b c src : List Nat) (off : Nat) (hoff : off = a.length)
    (h : src.length = b.length) :
    jsSet (a ++ b ++ c) src off = some (a ++ src ++ c) := by
  subst hoff
  exact jsSet_fit a b c src h

theorem jsSlice_extractAt (pre mid post : List Nat) (a b : Nat)
    (ha : a = pre.length) (hb : b = pre.length + mid.length) :
    jsSlice (pre ++ mid ++ post) a b = mid := by
  subst ha
  subst hb
  exact jsSlice_extract pre mid post

theorem ofBytesBEFrom_extractAt (pre mid post : List Nat) (start len : Nat)
    (hs : start = pre.length) (hl : len = mid.length) :
    ofBytesBEFrom (pre ++ mid ++ post) start len = ofBytesBE mid := by
  subst hs
  subst hl
  exact ofBytesBEFrom_extract pre mid post

theorem generateIV_ok (counter salt : List Nat) (h : counter.length ≤ salt.length) :
    ∃ iv, generateIV counter salt = .ok iv := by
  rw [generateIV, if_neg (by omega)]
  exact ⟨_, rfl⟩

theorem jsGet_take {l : List Nat} {n i : Nat} (h : i < n) :
    jsGet (l.take n) i = jsGet l i := by
  simp [jsGet, List.getD, List.getElem?_take, h]

theorem all_tag_check (l : List Nat) (n : Nat) :
    (List.range n).all (fun i => jsGet (jsSlice l 0 n) i == jsGet l i) = true := by
  rw [List.all_eq_true]
  intro i hi
  rw [List.mem_range] at hi
  rw [jsSlice_zero, jsGet_take hi]
  simp

theorem take_length_min (l : List Nat) (n : Nat) :
    (l.take n).length = min n l.length := List.length_take n l

theorem encrypt_eq (k : SFrameCrypto) (header : SFrameHeader)
    (payload : List Nat) (skip : Nat) (iv : List Nat)
    (hiv : generateIV header.rawCounter k.saltKey = .ok iv)
    (hnT : k.config.nT ≤ 32) :
    SFrameCrypto.encrypt k header payload skip = .ok
      (List.replicate skip 0 ++ header.data ++ k.prim.enc iv header.data payload
        ++ (k.prim.hmacSign (header.data ++ k.prim.enc iv header.data payload)).take
            k.config.nT,
       (k.prim.hmacSign (header.data ++ k.prim.enc iv header.data payload)).take
          k.config.nT) := by
  simp only [SFrameCrypto.encrypt, hiv]
  set enc := k.prim.enc iv header.data payload with henc
  set nT := k.config.nT with hnTdef
  set hdr := header.data with hhdr
  have hsplit : List.replicate (hdr.length + enc.length + nT + skip) (0 : Nat)
      = List.replicate skip 0 ++ List.replicate hdr.length 0
        ++ List.replicate (enc.length + nT) 0 := by
    rw [← List.replicate_add, ← List.replicate_add]
    congr 1
    omega
  have hstep1 : jsSet (List.replicate (hdr.length + enc.length + nT + skip) (0 : Nat))
      hdr skip
      = some (List.replicate skip 0 ++ hdr ++ List.replicate (enc.length + nT) 0) := by
    rw [hsplit]
    exact jsSet_fitAt _ _ _ _ _ (by simp) (by simp)
  have hsplit2 : List.replicate skip (0 : Nat) ++ hdr ++ List.replicate (enc.length + nT) 0
      = (List.replicate skip 0 ++ hdr) ++ List.replicate enc.length 0
          ++ List.replicate nT 0 := by
    rw [List.replicate_add]
    simp [List.append_assoc]
  have hstep2 : jsSet (List.replicate skip (0 : Nat) ++ hdr
        ++ List.replicate (enc.length + nT) 0) enc (skip + hdr.length)
      = some ((List.replicate skip 0 ++ hdr) ++ enc ++ List.replicate nT 0) := by
    rw [hsplit2]
    exact jsSet_fitAt _ _ _ _ _ (by simp) (by simp)
  simp only [hstep1, hstep2]
  have hauth : jsSlice ((List.replicate skip (0 : Nat) ++ hdr) ++ enc
        ++ List.replicate nT 0) skip (skip + hdr.length + enc.length)
      = hdr ++ enc := by
    have hform : (List.replicate skip (0 : Nat) ++ hdr) ++ enc ++ List.replicate nT 0
        = List.replicate skip 0 ++ (hdr ++ enc) ++ List.replicate nT 0 := by
      simp [List.append_assoc]
    rw [hform]
    exact jsSlice_extractAt _ _ _ _ _ (by simp) (by simp; omega)
  simp only [hauth]
  have htagLen : (jsSlice (k.prim.hmacSign (hdr ++ enc)) 0 nT).length
      = (List.replicate nT (0 : Nat)).length := by
    rw [jsSlice_zero, take_length_min, k.prim.hmac_length, List.length_replicate]
    omega
  have hstep3 : jsSet ((List.replicate skip (0 : Nat) ++ hdr) ++ enc
        ++ List.replicate nT 0) (jsSlice (k.prim.hmacSign (hdr ++ enc)) 0 nT)
        (skip + enc.length + hdr.length)
      = some (((List.replicate skip 0 ++ hdr) ++ enc)
          ++ jsSlice (k.prim.hmacSign (hdr ++ enc)) 0 nT ++ []) := by
    rw [show (List.replicate skip (0 : Nat) ++ hdr) ++ enc ++ List.replicate nT 0
        = ((List.replicate skip 0 ++ hdr) ++ enc) ++ List.replicate nT 0 ++ [] from
        by simp [List.append_assoc]]
    exact jsSet_fitAt _ _ _ _ _ (by simp [Nat.add_comm, Nat.add_left_comm])
      (by rw [htagLen])
  simp only [hstep3]
  rw [jsSlice_zero]
  simp [List.append_assoc]

theorem decrypt_eq (k : SFrameCrypto) (header : SFrameHeader)
    (pfx ct : List Nat) (skip : Nat) (iv : List Nat)
    (hiv : generateIV header.rawCounter k.saltKey = .ok iv)
    (hpfx : pfx.length = skip) (hnT : k.config.nT ≤ 32) :
    SFrameCrypto.decrypt k header
      (pfx ++ header.data ++ ct
        ++ (k.prim.hmacSign (header.data ++ ct)).take k.config.nT) skip
      = match k.prim.dec iv header.data ct with
        | .ok payload => .ok (payload,
            (k.prim.hmacSign (header.data ++ ct)).take k.config.nT)
        | .error e => .error e := by
  simp only [SFrameCrypto.decrypt, hiv]
  set nT := k.config.nT with hnTdef
  set hdr := header.data with hhdr
  set tag := (k.prim.hmacSign (hdr ++ ct)).take nT with htag
  have htagLen : tag.length = nT := by
    rw [htag, List.length_take, k.prim.hmac_length]
    omega
  have hfl : (pfx ++ hdr ++ ct ++ tag).length - skip
      = hdr.length + ct.length + nT := by
    simp [hpfx, htagLen]
    omega
  simp only [hfl]
  have hencPay : jsSlice (pfx ++ hdr ++ ct ++ tag) (skip + hdr.length)
      (skip + (hdr.length + ct.length + nT) - nT) = ct := by
    rw [show pfx ++ hdr ++ ct ++ tag = (pfx ++ hdr) ++ ct ++ tag from by
      simp [List.append_assoc]]
    exact jsSlice_extractAt _ _ _ _ _ (by simp [hpfx]) (by simp [hpfx]; omega)
  simp only [hencPay]
  have hauthCode : jsSlice (pfx ++ hdr ++ ct ++ tag) skip
      (skip + hdr.length + ct.length) = hdr ++ ct := by
    rw [show pfx ++ hdr ++ ct ++ tag = pfx ++ (hdr ++ ct) ++ tag from by
      simp [List.append_assoc]]
    exact jsSlice_extractAt _ _ _ _ _ (by simp [hpfx]) (by simp [hpfx]; omega)
  simp only [hauthCode]
  have hauthTag : jsSlice (pfx ++ hdr ++ ct ++ tag)
      (skip + (hdr.length + ct.length + nT) - nT)
      (skip + (hdr.length + ct.length + nT)) = tag := by
    rw [show pfx ++ hdr ++ ct ++ tag = (pfx ++ hdr ++ ct) ++ tag ++ [] from by
      simp [List.append_assoc]]
    exact jsSlice_extractAt _ _ _ _ _ (by simp [hpfx]; omega)
      (by simp [hpfx, htagLen]; omega)
  simp only [hauthTag]
  have hcheck : (List.range nT).all
      (fun i => jsGet tag i == jsGet (k.prim.hmacSign (hdr ++ ct)) i) = true := by
    have := all_tag_check (k.prim.hmacSign (hdr ++ ct)) nT
    rw [jsSlice_zero] at this
    exact this
  rw [htag] at hcheck ⊢
  simp only [hcheck, if_true]
  cases k.prim.dec iv hdr ct <;> rfl

theorem take_length_eq {P : List Nat} {skip : Nat} (hsk : skip ≤ P.length) :
    (P.take skip).length = skip := by
  rw [List.length_take]
  omega

theorem sender_encrypt_eq (k : SFrameCrypto) (kid ctr : Nat) (P : List Nat)
    (skip : Nat) (header : SFrameHeader) (iv : List Nat)
    (hgen : generateSFrameHeader kid ctr = .ok header)
    (hiv : generateIV header.rawCounter k.saltKey = .ok iv)
    (hsk : skip ≤ P.length) (hnT : k.config.nT ≤ 32) :
    Sender.encrypt { counter := ctr, key := some k, senderId := kid } P skip
      = .ok (P.take skip ++ header.data ++ k.prim.enc iv header.data P
          ++ (k.prim.hmacSign (header.data ++ k.prim.enc iv header.data P)).take
              k.config.nT,
        { counter := jsNumSucc ctr, key := some k, senderId := kid }) := by
  simp only [Sender.encrypt, hgen, encrypt_eq k header P skip iv hiv hnT]
  by_cases hskip : skip = 0
  · subst hskip
    simp
  · rw [if_pos hskip]
    have hset : jsSet (List.replicate skip (0 : Nat) ++ header.data
          ++ k.prim.enc iv header.data P
          ++ (k.prim.hmacSign (header.data ++ k.prim.enc iv header.data P)).take
              k.config.nT)
        (jsSlice P 0 skip) 0
        = some (P.take skip ++ header.data ++ k.prim.enc iv header.data P
          ++ (k.prim.hmacSign (header.data ++ k.prim.enc iv header.data P)).take
              k.config.nT) := by
      rw [jsSlice_zero]
      rw [show List.replicate skip (0 : Nat) ++ header.data
            ++ k.prim.enc iv header.data P
            ++ (k.prim.hmacSign (header.data ++ k.prim.enc iv header.data P)).take
                k.config.nT
          = [] ++ List.replicate skip 0 ++ (header.data
              ++ (k.prim.enc iv header.data P
                ++ (k.prim.hmacSign (header.data
                      ++ k.prim.enc iv header.data P)).take k.config.nT)) from
          by simp [List.append_assoc]]
      rw [jsSet_fitAt _ _ _ _ _ (by simp) (by simp [take_length_eq hsk])]
      simp [List.append_assoc]
    rw [hset]

theorem parse_generated_any_rest (kid ctr : Nat) (h : SFrameHeader)
    (rest : List Nat)
    (hk : kid ≤ SFRAME_HEADER_MAXKEYID) (hc : ctr < counterOverflowThreshold)
    (hgen : generateSFrameHeader kid ctr = .ok h) :
    parseSFrameHeader (h.data ++ rest)
      = { data := h.data, keyId := kid, counter := ctr,
          rawCounter := h.rawCounter } := by
  obtain ⟨h2, hgen2, _, _, _, _, hparse⟩ := parse_generate kid ctr rest hk hc
  rw [hgen] at hgen2
  injection hgen2 with hh
  subst hh
  exact hparse

theorem roundtrip_core (k : SFrameCrypto) (kid ctr : Nat) (P : List Nat)
    (skip : Nat)
    (hk : kid ≤ SFRAME_HEADER_MAXKEYID) (hc : ctr < counterOverflowThreshold)
    (hsk : skip ≤ P.length) (hsalt : k.saltKey.length = 12)
    (hnT : k.config.nT ≤ 32) :
    ∃ header iv frame c',
      generateSFrameHeader kid ctr = .ok header ∧
      generateIV header.rawCounter k.saltKey = .ok iv ∧
      Sender.encrypt { counter := ctr, key := some k, senderId := kid } P skip
        = .ok (frame, { counter := jsNumSucc ctr, key := some k, senderId := kid }) ∧
      frame = P.take skip ++ header.data ++ k.prim.enc iv header.data P
        ++ (k.prim.hmacSign (header.data ++ k.prim.enc iv header.data P)).take
            k.config.nT ∧
      Context.decrypt
        { sender := none,
          receivers := [(kid, { maxReceivedCounter := -1, keyring := [k] })] }
        frame skip = .ok (P, c') := by
  obtain ⟨header, hgen, hkeyId, hcounter, hraw, hdlen, hparse0⟩ :=
    parse_generate kid ctr [] hk hc
  have hrawLen : header.rawCounter.length = calculateKLENorLEN ctr + 1 := by
    rw [hraw, toBytesBE_length]
  have hLEN : calculateKLENorLEN ctr ≤ 7 := ctrLEN_le_seven hc
  obtain ⟨iv, hiv⟩ := generateIV_ok header.rawCounter k.saltKey (by omega)
  set enc := k.prim.enc iv header.data P with hencdef
  set tag := (k.prim.hmacSign (header.data ++ enc)).take k.config.nT with htagdef
  have hparse := parse_generated_any_rest kid ctr header (enc ++ tag) hk hc hgen
  have hsend := sender_encrypt_eq k kid ctr P skip header iv hgen hiv hsk hnT
  refine ⟨header, iv, _, ⟨none, [(kid, ⟨max (ctr : Int) (-1), [k]⟩)]⟩,
    hgen, hiv, hsend, rfl, ?_⟩
  have hdrop : (P.take skip ++ header.data ++ enc ++ tag).drop skip
      = header.data ++ (enc ++ tag) := by
    rw [show P.take skip ++ header.data ++ enc ++ tag
        = P.take skip ++ (header.data ++ (enc ++ tag)) from by simp [List.append_assoc]]
    exact List.drop_left' (take_length_eq hsk)
  simp only [Context.decrypt, hdrop, hparse]
  rw [show List.lookup kid [(kid, (⟨-1, [k]⟩ : Receiver))] = some ⟨-1, [k]⟩ from by
    simp [List.lookup]]
  have hreplay : Receiver.checkForReplayAttack ⟨-1, [k]⟩
      ⟨header.data, kid, ctr, header.rawCounter⟩ = .ok () := by
    rw [Receiver.checkForReplayAttack, if_neg]
    intro hcontra
    have h1 : (0 : Int) ≤ (ctr : Int) := Int.natCast_nonneg ctr
    have h2 := hcontra.1
    simp only at h2
    omega
  have hdec : SFrameCrypto.decrypt k ⟨header.data, kid, ctr, header.rawCounter⟩
      (P.take skip ++ header.data ++ enc ++ tag) skip = .ok (P, tag) := by
    have := decrypt_eq k ⟨header.data, kid, ctr, header.rawCounter⟩
      (P.take skip) enc skip iv hiv (take_length_eq hsk) hnT
    simp only at this
    rw [this, hencdef, k.prim.dec_enc]
  simp only [Receiver.decrypt, hreplay, tryKeyring, hdec]
  by_cases hskip : skip = 0
  · subst hskip
    simp
  · rw [if_pos hskip]
    have hslice : jsSlice (P.take skip ++ header.data ++ enc ++ tag) 0 skip
        = P.take skip := by
      rw [jsSlice_zero]
      rw [show P.take skip ++ header.data ++ enc ++ tag
          = P.take skip ++ (header.data ++ (enc ++ tag)) from by
        simp [List.append_assoc]]
      exact List.take_left' (take_length_eq hsk)
    rw [hslice]
    have hset : jsSet P (P.take skip) 0 = some P := by
      rw [jsSet, if_pos (by simp [take_length_eq hsk]; omega)]
      simp [take_length_eq hsk]
    rw [hset]
    simp

theorem config_nT_le_32 {v : CipherSuiteVariant} {cfg : CipherSuiteConfig}
    (h : getCipherSuiteConfig v = some cfg) : cfg.nT ≤ 32 := by
  cases v <;>
    simp only [getCipherSuiteConfig, Option.some.injEq] at h <;>
    subst h <;> decide

/-- C1: for every plaintext `P`, every skip `s` with `s ≤ |P|`, and every
supported cipher-suite variant, if a sender and a receiver are set up from
the same key material (the sender has the derived cipher-suite instance
installed and the receiver holds it in its keyring), then decrypting the
sender's encrypted frame with the same skip returns exactly `P`:
`decrypt(encrypt(P, s), s) = P`.  The WebCrypto AEAD/HMAC primitives are
quantified over all instances satisfying the model laws; the frame counter
ranges over the values `generateSFrameHeader` accepts, i.e. below
`counterOverflowThreshold`. -/
theorem C1_encrypt_decrypt_roundtrip
    (A : AEADModel) (salt : List Nat) (v : CipherSuiteVariant)
    (cfg : CipherSuiteConfig) (kid ctr : Nat) (P : List Nat) (skip : Nat)
    (hcfg : getCipherSuiteConfig v = some cfg)
    (hsalt : salt.length = 12)
    (hkid : kid ≤ SFRAME_HEADER_MAXKEYID)
    (hctr : ctr < counterOverflowThreshold)
    (hskip : skip ≤ P.length) :
    ∃ frame c',
      Sender.encrypt
        { counter := ctr, key := some ⟨A, salt, cfg⟩, senderId := kid } P skip
        = .ok (frame,
          { counter := jsNumSucc ctr, key := some ⟨A, salt, cfg⟩,
            senderId := kid }) ∧
      Context.decrypt
        { sender := none,
          receivers := [(kid, ⟨-1, [⟨A, salt, cfg⟩]⟩)] }
        frame skip = .ok (P, c') := by
  obtain ⟨header, iv, frame, c', hgen, hiv, hsend, hframe, hdec⟩ :=
    roundtrip_core ⟨A, salt, cfg⟩ kid ctr P skip hkid hctr hskip hsalt
      (config_nT_le_32 hcfg)
  exact ⟨frame, c', hsend, hdec⟩

/-- Witness for C1: a concrete instance with the identity AEAD, all-zero
salt, the `AES_CM_128_HMAC_SHA256_4` suite, keyId 0, counter 0, plaintext
`[1, 2, 3]` and skip 1. -/
theorem C1_witness :
    ∃ frame c',
      Sender.encrypt
        { counter := 0, key := some ⟨idAEAD, List.replicate 12 0, cmConfig4⟩,
          senderId := 0 } [1, 2, 3] 1
        = .ok (frame,
          { counter := jsNumSucc 0,
            key := some ⟨idAEAD, List.replicate 12 0, cmConfig4⟩,
            senderId := 0 }) ∧
      Context.decrypt
        { sender := none,
          receivers := [(0, ⟨-1, [⟨idAEAD, List.replicate 12 0, cmConfig4⟩]⟩)] }
        frame 1 = .ok ([1, 2, 3], c') :=
  C1_encrypt_decrypt_roundtrip idAEAD (List.replicate 12 0)
    .AES_CM_128_HMAC_SHA256_4 cmConfig4 0 0 [1, 2, 3] 1
    rfl (by simp) (by decide) (by decide) (by decide)

/-- C2 (amended): for every keyId up to `SFRAME_HEADER_MAXKEYID` and
counter below `counterOverflowThreshold` (`2^64 - 93183`), parsing the
bytes produced by `generateSFrameHeader` recovers exactly the keyId and the
counter.  The claimed range `ctr < 2^64` is too large: in the band
`[2^64 - 93183, 2^64)` the double-precision length computation truncates to
8 and `generateSFrameHeader` throws instead of producing a header (see
`C2_counterexample`). -/
theorem C2_header_roundtrip (kid ctr : Nat)
    (hkid : kid ≤ SFRAME_HEADER_MAXKEYID) (hctr : ctr < counterOverflowThreshold) :
    ∃ h, generateSFrameHeader kid ctr = .ok h ∧
      (parseSFrameHeader h.data).keyId = kid ∧
      (parseSFrameHeader h.data).counter = ctr := by
  obtain ⟨h, hgen, _, _, _, _, hparse⟩ := parse_generate kid ctr [] hkid hctr
  rw [List.append_nil] at hparse
  exact ⟨h, hgen, by rw [hparse], by rw [hparse]⟩

/-- Witness for C2 at the concrete extended-key pair
`(0xbbccdd, 0xff)` from the repository's test vectors. -/
theorem C2_witness :
    ∃ h, generateSFrameHeader 0xbbccdd 0xff = .ok h ∧
      (parseSFrameHeader h.data).keyId = 0xbbccdd ∧
      (parseSFrameHeader h.data).counter = 0xff :=
  C2_header_roundtrip 0xbbccdd 0xff (by decide) (by decide)

/-- C2 counterexample: the counter `2^64 - 2048` lies in the claimed range
`[0, 2^64)`, yet `generateSFrameHeader` throws: the double-precision
`Math.log` quotient is exactly `8.0` there, so the computed counter length
fails the `1-8` bytes check and no header is produced at all — the
universal round-trip over `ctr < 2^64` is false of the program. -/
theorem C2_counterexample :
    generateSFrameHeader 0 18446744073709549568
      = .error (.plain "The length of the CTR fields in bytes must be between 1-8")
    ∧ (18446744073709549568 : Nat) < 2 ^ 64 := by
  refine ⟨by decide, by norm_num⟩

/-- C9: encrypting with no sender key installed fails with an
`InvalidKey` error, and decrypting a frame whose parsed header keyId has no
registered receiver fails with an `InvalidKey` error. -/
theorem C9_invalid_key_errors :
    (∀ (s : Sender) (P : List Nat) (skip : Nat), s.key = none →
      Sender.encrypt s P skip
        = .error (.sframe .InvalidKey "Encryption key not set")) ∧
    (∀ (c : Context) (frame : List Nat) (skip : Nat),
      List.lookup (parseSFrameHeader (List.drop skip frame)).keyId c.receivers
        = none →
      Context.decrypt c frame skip = .error (.sframe .InvalidKey
        ("No receiver found for keyId "
          ++ toString (parseSFrameHeader (List.drop skip frame)).keyId))) := by
  constructor
  · intro s P skip hkey
    simp only [Sender.encrypt, hkey]
  · intro c frame skip hlook
    simp only [Context.decrypt, hlook]

/-- Witness for C9: a sender with no key, and a context with no receivers. -/
theorem C9_witness :
    Sender.encrypt { counter := 0, key := none, senderId := 0 } [] 0
      = .error (.sframe .InvalidKey "Encryption key not set") ∧
    Context.decrypt { sender := none, receivers := [] } [] 0
      = .error (.sframe .InvalidKey ("No receiver found for keyId "
          ++ toString (parseSFrameHeader (List.drop 0 ([] : List Nat))).keyId)) :=
  ⟨C9_invalid_key_errors.1 _ [] 0 rfl, C9_invalid_key_errors.2 _ [] 0 rfl⟩

/-- C10: `parseSFrameHeader` is total — `Context.readKeyId` is exactly the
keyId of the parsed (dropped-prefix) buffer for every frame, the parser
never reads a header longer than the input (short buffers included), and
even the empty buffer parses to a header record (keyId 0, counter 0) with
no error raised. -/
theorem C10_parse_total :
    (∀ (c : Context) (frame : MediaFrame),
      Context.readKeyId c frame
        = (parseSFrameHeader (List.drop frame.headerLength frame.data)).keyId) ∧
    (∀ bs : List Nat, (parseSFrameHeader bs).data.length ≤ bs.length) ∧
    parseSFrameHeader []
      = { data := [], keyId := 0, counter := 0, rawCounter := [] } := by
  refine ⟨fun c frame => rfl, fun bs => ?_, by decide⟩
  rw [parseSFrameHeader]
  split <;>
  · simp only [jsSlice_zero]
    exact List.length_take_le' _ _

/-- C4 counterexample: with the identity AEAD instance (its output equals
its input byte for byte), encrypt([1, 2], skip 1) has AEAD-ciphertext region
`[1, 2]` — the whole payload, including the skip byte `1`, was passed to the
AEAD — whereas the claim says only `P[1..) = [2]` is passed.  (The header for
(keyId 0, counter 0) is 2 bytes, so the region is frame[1+2 .. 1+2+2).) -/
theorem C4_counterexample :
    (generateSFrameHeader 0 0).map (fun h => h.data.length) = .ok 2 ∧
    (Sender.encrypt
        { counter := 0, key := some scenarioCrypto, senderId := 0 } [1, 2] 1).map
        (fun p => jsSlice p.1 (1 + 2) (1 + 2 + 2)) = .ok [1, 2] ∧
    [1, 2] ≠ List.drop 1 [1, 2] := by
  refine ⟨by decide, by decide, by decide⟩

/-- C4 (amended): the first `s` bytes of encrypt(P, s) equal `P[0..s)` (they
travel in the clear), but the skip prefix is NOT excluded from the AEAD
input: the region between the header and the HMAC tag is the AEAD applied to
the entire payload `P`, skip prefix included. -/
theorem C4_skip_prefix_amended
    (A : AEADModel) (salt : List Nat) (v : CipherSuiteVariant)
    (cfg : CipherSuiteConfig) (kid ctr : Nat) (P : List Nat) (skip : Nat)
    (hcfg : getCipherSuiteConfig v = some cfg)
    (hsalt : salt.length = 12)
    (hkid : kid ≤ SFRAME_HEADER_MAXKEYID)
    (hctr : ctr < counterOverflowThreshold)
    (hskip : skip ≤ P.length) :
    ∃ header iv frame s',
      generateSFrameHeader kid ctr = .ok header ∧
      generateIV header.rawCounter salt = .ok iv ∧
      Sender.encrypt
        { counter := ctr, key := some ⟨A, salt, cfg⟩, senderId := kid } P skip
        = .ok (frame, s') ∧
      frame.take skip = P.take skip ∧
      jsSlice frame (skip + header.data.length)
          (skip + header.data.length + (A.enc iv header.data P).length)
        = A.enc iv header.data P := by
  obtain ⟨header, iv, frame, c', hgen, hiv, hsend, hframe, hdec⟩ :=
    roundtrip_core ⟨A, salt, cfg⟩ kid ctr P skip hkid hctr hskip hsalt
      (config_nT_le_32 hcfg)
  refine ⟨header, iv, frame, _, hgen, hiv, hsend, ?_, ?_⟩
  · rw [hframe]
    rw [show P.take skip ++ header.data ++ A.enc iv header.data P
          ++ (AEADModel.hmacSign A (header.data ++ A.enc iv header.data P)).take
              cfg.nT
        = P.take skip ++ (header.data ++ (A.enc iv header.data P
          ++ (AEADModel.hmacSign A (header.data
              ++ A.enc iv header.data P)).take cfg.nT)) from by
      simp [List.append_assoc]]
    exact List.take_left' (take_length_eq hskip)
  · rw [hframe]
    rw [show P.take skip ++ header.data ++ A.enc iv header.data P
          ++ (AEADModel.hmacSign A (header.data ++ A.enc iv header.data P)).take
              cfg.nT
        = (P.take skip ++ header.data) ++ A.enc iv header.data P
          ++ (AEADModel.hmacSign A (header.data
              ++ A.enc iv header.data P)).take cfg.nT from by
      simp [List.append_assoc]]
    exact jsSlice_extractAt _ _ _ _ _ (by simp [take_length_eq hskip])
      (by simp [take_length_eq hskip])

/-- Witness for the amended C4 at the concrete identity-AEAD instance with
plaintext `[1, 2]` and skip 1. -/
theorem C4_witness :
    ∃ header iv frame s',
      generateSFrameHeader 0 0 = .ok header ∧
      generateIV header.rawCounter (List.replicate 12 0) = .ok iv ∧
      Sender.encrypt
        { counter := 0, key := some ⟨idAEAD, List.replicate 12 0, cmConfig4⟩,
          senderId := 0 } [1, 2] 1
        = .ok (frame, s') ∧
      frame.take 1 = List.take 1 [1, 2] ∧
      jsSlice frame (1 + header.data.length)
          (1 + header.data.length + (idAEAD.enc iv header.data [1, 2]).length)
        = idAEAD.enc iv header.data [1, 2] :=
  C4_skip_prefix_amended idAEAD (List.replicate 12 0)
    .AES_CM_128_HMAC_SHA256_4 cmConfig4 0 0 [1, 2] 1
    rfl (by simp) (by decide) (by decide) (by decide)

/-- C5 counterexample: with the default `AES_GCM_256_SHA512` suite and an
AEAD with the WebCrypto AES-GCM length behaviour (native 16-byte GCM tag
appended), encrypt([1], skip 0) produces a 35-byte frame, while the claim's
formula `s + |header.data| + |P| + nT` gives `0 + 2 + 1 + 16 = 19`. -/
theorem C5_counterexample :
    (Sender.encrypt
        { counter := 0,
          key := some ⟨gcmLikeAEAD, List.replicate 12 0, gcmConfig256⟩,
          senderId := 0 } [1] 0).map (fun p => p.1.length) = .ok 35 ∧
    (generateSFrameHeader 0 0).map (fun h => h.data.length) = .ok 2 ∧
    0 + 2 + 1 + gcmConfig256.nT = 19 ∧ (35 : Nat) ≠ 19 := by
  refine ⟨by decide, by decide, by decide, by decide⟩

/-- C5 (amended): the encrypted frame has total length exactly
`skip + |header.data| + |ciphertextCore| + nT`, where the ciphertext core is
`|P| + expansion` bytes — the AEAD's length expansion is 0 for the AES-CTR
suites and 16 for the AES-GCM suites under WebCrypto (the native GCM tag),
so the region between header and HMAC tag has the length of `P` only for
the AES-CTR suites. -/
theorem C5_frame_length_amended
    (A : AEADModel) (salt : List Nat) (v : CipherSuiteVariant)
    (cfg : CipherSuiteConfig) (kid ctr : Nat) (P : List Nat) (skip : Nat)
    (hcfg : getCipherSuiteConfig v = some cfg)
    (hsalt : salt.length = 12)
    (hkid : kid ≤ SFRAME_HEADER_MAXKEYID)
    (hctr : ctr < counterOverflowThreshold)
    (hskip : skip ≤ P.length) :
    ∃ header frame s',
      generateSFrameHeader kid ctr = .ok header ∧
      Sender.encrypt
        { counter := ctr, key := some ⟨A, salt, cfg⟩, senderId := kid } P skip
        = .ok (frame, s') ∧
      frame.length
        = skip + header.data.length + (P.length + A.expansion) + cfg.nT := by
  obtain ⟨header, iv, frame, c', hgen, hiv, hsend, hframe, hdec⟩ :=
    roundtrip_core ⟨A, salt, cfg⟩ kid ctr P skip hkid hctr hskip hsalt
      (config_nT_le_32 hcfg)
  refine ⟨header, frame, _, hgen, hsend, ?_⟩
  rw [hframe]
  have hencLen := A.enc_length iv header.data P
  have hmacLen := A.hmac_length (header.data ++ A.enc iv header.data P)
  have hnT := config_nT_le_32 hcfg
  simp only [List.length_append, List.length_take, take_length_eq hskip,
    hencLen, hmacLen]
  omega

/-- Witness for the amended C5: identity AEAD (expansion 0), CTR suite,
plaintext `[1, 2, 3]`, skip 2. -/
theorem C5_witness :
    ∃ header frame s',
      generateSFrameHeader 0 0 = .ok header ∧
      Sender.encrypt
        { counter := 0, key := some ⟨idAEAD, List.replicate 12 0, cmConfig4⟩,
          senderId := 0 } [1, 2, 3] 2
        = .ok (frame, s') ∧
      frame.length
        = 2 + header.data.length + (3 + idAEAD.expansion) + cmConfig4.nT :=
  C5_frame_length_amended idAEAD (List.replicate 12 0)
    .AES_CM_128_HMAC_SHA256_4 cmConfig4 0 0 [1, 2, 3] 2
    rfl (by simp) (by decide) (by decide) (by decide)

/-- C6 (amended): `generateSFrameHeader` emits the metadata byte
`((LEN & 7) << 4) | (X << 3) | (K & 7)` (written `16*LEN + 8*X + K`), with
`X = 1` exactly when `keyId > 7` and `K` the keyId (non-extended) or
`kidBytes - 1` (extended); then, when extended, the keyId big-endian, and
finally the counter big-endian (counter 0 takes 1 byte).  But the byte
lengths are NOT always minimal as claimed: they come from the
double-precision `Math.log` quotient, which always fits the value
(`v < 256^len`) and is at most one byte longer than minimal
(`len ≤ 1` or `256^(len-2) ≤ v`), yet in the narrow float-rounding band
just below `256^6`, `256^7` and `256^8` the field carries an extra leading
zero byte (see `C6_counterexample`).  Both concrete examples
(`generate(0xbbccdd, 0xff).data = 0a bb cc dd ff`,
`generate(0xbbccddee, 0x100).data = 1b bb cc dd ee 01 00`) are unaffected
and hold exactly. -/
theorem C6_generate_layout :
    (∀ kid ctr : Nat, kid ≤ SFRAME_HEADER_MAXKEYID →
      ctr < counterOverflowThreshold →
      ∃ h LEN K,
        generateSFrameHeader kid ctr = .ok h ∧
        LEN ≤ 7 ∧ K ≤ 7 ∧
        h.data = [16 * LEN + 8 * (if 7 < kid then 1 else 0) + K]
          ++ (if 7 < kid then toBytesBE kid (K + 1) else [])
          ++ toBytesBE ctr (LEN + 1) ∧
        (7 < kid → kid < 256 ^ (K + 1) ∧ (K = 0 ∨ 256 ^ (K - 1) ≤ kid)) ∧
        (¬ 7 < kid → K = kid) ∧
        ctr < 256 ^ (LEN + 1) ∧ (LEN = 0 ∨ 256 ^ (LEN - 1) ≤ ctr) ∧
        h.rawCounter = toBytesBE ctr (LEN + 1)) ∧
    (generateSFrameHeader 0xbbccdd 0xff).map (fun h => h.data)
      = .ok [0x0a, 0xbb, 0xcc, 0xdd, 0xff] ∧
    (generateSFrameHeader 0xbbccddee 0x100).map (fun h => h.data)
      = .ok [0x1b, 0xbb, 0xcc, 0xdd, 0xee, 0x01, 0x00] := by
  refine ⟨?_, by decide, by decide⟩
  intro kid ctr hkid hctr
  have hLEN : calculateKLENorLEN ctr ≤ 7 := ctrLEN_le_seven hctr
  have hfitc : ctr < 256 ^ 128 := lt_trans hctr counterOverflowThreshold_lt
  have hfitk : kid < 256 ^ 128 := by
    have h1 : SFRAME_HEADER_MAXKEYID < 256 ^ 8 := by
      norm_num [SFRAME_HEADER_MAXKEYID]
    have h2 : (256 : Nat) ^ 8 ≤ 256 ^ 128 :=
      Nat.pow_le_pow_right (by norm_num) (by norm_num)
    omega
  have hK : (if 7 < kid then calculateKLENorLEN kid else kid) ≤ 7 := by
    by_cases hkid7 : 7 < kid
    · simp only [if_pos hkid7]
      have := keyLen_le_six hkid
      omega
    · simp only [if_neg hkid7]
      omega
  have hgen := generate_eq kid ctr hkid hLEN hK
  refine ⟨_, calculateKLENorLEN ctr,
    (if 7 < kid then calculateKLENorLEN kid else kid), hgen, hLEN, hK,
    ?_, ?_, ?_, ?_, ?_, rfl⟩
  · by_cases hkid7 : 7 < kid <;> simp [hkid7]
  · intro hkid7
    simp only [if_pos hkid7]
    constructor
    · exact calculateKLENorLEN_lt_pow hfitk
    · by_cases hk0 : calculateKLENorLEN kid = 0
      · exact Or.inl hk0
      · exact Or.inr (calculateKLENorLEN_pow_pred_le hfitk (by omega))
  · intro hkid7
    simp only [if_neg hkid7]
  · exact calculateKLENorLEN_lt_pow hfitc
  · by_cases hc0 : calculateKLENorLEN ctr = 0
    · exact Or.inl hc0
    · exact Or.inr (calculateKLENorLEN_pow_pred_le hfitc (by omega))

/-- Witness for the amended C6 at the extended-key pair `(8, 0)`. -/
theorem C6_witness :
    ∃ h LEN K,
      generateSFrameHeader 8 0 = .ok h ∧
      LEN ≤ 7 ∧ K ≤ 7 ∧
      h.data = [16 * LEN + 8 * (if 7 < (8 : Nat) then 1 else 0) + K]
        ++ (if 7 < (8 : Nat) then toBytesBE 8 (K + 1) else [])
        ++ toBytesBE 0 (LEN + 1) ∧
      (7 < (8 : Nat) → 8 < 256 ^ (K + 1) ∧ (K = 0 ∨ 256 ^ (K - 1) ≤ 8)) ∧
      (¬ 7 < (8 : Nat) → K = 8) ∧
      (0 : Nat) < 256 ^ (LEN + 1) ∧ (LEN = 0 ∨ 256 ^ (LEN - 1) ≤ 0) ∧
      h.rawCounter = toBytesBE 0 (LEN + 1) :=
  C6_generate_layout.1 8 0 (by decide) (by decide)

/-- C6 counterexample: at counter `2^48 - 1` the double-precision length
computation already yields 6 (the exact floor logarithm is 5), so the
emitted counter field is the 7-byte string `00 ff ff ff ff ff ff` with an
extra leading zero — not the minimal 6-byte big-endian encoding the claim
states. -/
theorem C6_counterexample :
    (generateSFrameHeader 0 281474976710655).map (fun h => h.rawCounter)
      = .ok [0x00, 0xff, 0xff, 0xff, 0xff, 0xff, 0xff] ∧
    ¬ isMinimalBE 281474976710655 7 := by
  refine ⟨by decide, by decide⟩

/-- C7: for a raw counter of 1..8 bytes and a 12-byte salt, `generateIV`
returns the 12-byte IV obtained by right-aligning the counter bytes into a
zeroed 12-byte array (`iv[12 - |counter| + i] = counter[i]`) and XORing
every byte with the salt; concretely, with salt `42d662fbad5cd81eb3aad79a`,
counter `aa` yields `42d662fbad5cd81eb3aad730` and counter `ffffffffffffff`
yields `42d662fbada327e14c552865`. -/
theorem C7_generateIV :
    (∀ counter salt : List Nat, 1 ≤ counter.length → counter.length ≤ 8 →
      salt.length = 12 →
      ∃ iv, generateIV counter salt = .ok iv ∧ iv.length = 12 ∧
        ∀ i, i < 12 →
          jsGet iv i
            = (if 12 - counter.length ≤ i
                then jsGet counter (i - (12 - counter.length)) else 0)
              ^^^ jsGet salt i) ∧
    generateIV [0xaa]
        [0x42, 0xd6, 0x62, 0xfb, 0xad, 0x5c, 0xd8, 0x1e, 0xb3, 0xaa, 0xd7, 0x9a]
      = .ok [0x42, 0xd6, 0x62, 0xfb, 0xad, 0x5c, 0xd8, 0x1e, 0xb3, 0xaa, 0xd7,
          0x30] ∧
    generateIV (List.replicate 7 0xff)
        [0x42, 0xd6, 0x62, 0xfb, 0xad, 0x5c, 0xd8, 0x1e, 0xb3, 0xaa, 0xd7, 0x9a]
      = .ok [0x42, 0xd6, 0x62, 0xfb, 0xad, 0xa3, 0x27, 0xe1, 0x4c, 0x55, 0x28,
          0x65] := by
  refine ⟨?_, by decide, by decide⟩
  intro counter salt hcl hcu hsl
  rw [generateIV, if_neg (by omega)]
  refine ⟨_, rfl, ?_, ?_⟩
  · simp [hsl]
  · intro i hi
    have hi' : i < salt.length := by omega
    have hiv0len : ((List.range salt.length).map (fun j =>
        if salt.length - counter.length ≤ j
          then jsGet counter (j - (salt.length - counter.length))
          else 0)).length = salt.length := by simp
    have hzl : (List.zip ((List.range salt.length).map (fun j =>
        if salt.length - counter.length ≤ j
          then jsGet counter (j - (salt.length - counter.length))
          else 0)) salt).length = salt.length := by
      simp [List.length_zip, hiv0len]
    rw [jsGet, List.getD_eq_getElem _ _ (by simp [hzl]; omega)]
    simp only [List.getElem_map, List.getElem_zip, List.getElem_range]
    simp only [hsl]
    simp [jsGet, List.getD, List.getElem?_eq_getElem hi']

/-- Witness for C7 at counter `aa` and the draft 0.3 test salt. -/
theorem C7_witness :
    ∃ iv, generateIV [0xaa]
        [0x42, 0xd6, 0x62, 0xfb, 0xad, 0x5c, 0xd8, 0x1e, 0xb3, 0xaa, 0xd7, 0x9a]
      = .ok iv ∧ iv.length = 12 ∧
      ∀ i, i < 12 →
        jsGet iv i
          = (if 12 - ([0xaa] : List Nat).length ≤ i
              then jsGet [0xaa] (i - (12 - ([0xaa] : List Nat).length)) else 0)
            ^^^ jsGet
              [0x42, 0xd6, 0x62, 0xfb, 0xad, 0x5c, 0xd8, 0x1e, 0xb3, 0xaa,
                0xd7, 0x9a] i :=
  C7_generateIV.1 [0xaa]
    [0x42, 0xd6, 0x62, 0xfb, 0xad, 0x5c, 0xd8, 0x1e, 0xb3, 0xaa, 0xd7, 0x9a]
    (by decide) (by decide) (by decide)

set_option maxRecDepth 1000000 in
/-- C3 counterexample: in the concrete run — 200 frames carrying counters
0..199, decrypted in reverse order — the first 129 attempts (counters
199 down to 71) succeed and only the remaining 71 (counters 70..0) fail,
not the 128/72 split the claim states: the attempt at counter 71 has
`maxReceivedCounter - counter = 128`, which is not `> 128`, so it passes
the replay check and decrypts. -/
theorem C3_counterexample :
    scenarioResults = List.replicate 129 0 ++ List.replicate 71 1 ∧
    List.replicate 129 (0 : Nat) ++ List.replicate 71 (1 : Nat)
      ≠ List.replicate 128 0 ++ List.replicate 72 1 := by
  refine ⟨by decide, by decide⟩

set_option maxRecDepth 1000000 in
/-- C3 (amended): the replay rule is — a frame with counter `c` fails with
`ReplayAttackError` iff `c < maxReceivedCounter` and
`maxReceivedCounter - c > 128`; consequently, decrypting the 200 frames with
counters 0..199 in reverse order, the first 129 attempts (counters 199 down
to 71) succeed and the remaining 71 (counters 70 down to 0) fail with
`ReplayAttackError`. -/
theorem C3_replay_window_amended :
    (∀ (r : Receiver) (h : SFrameHeader),
      Receiver.checkForReplayAttack r h
          = .error (.sframe .ReplayAttackError
              "Replay check failed, frame counter too old")
        ↔ ((h.counter : Int) < r.maxReceivedCounter ∧
            r.maxReceivedCounter - (h.counter : Int) > (ReplayWindow : Int))) ∧
    scenarioResults = List.replicate 129 0 ++ List.replicate 71 1 := by
  constructor
  · intro r h
    rw [Receiver.checkForReplayAttack]
    split
    · simp only [true_iff]
      assumption
    · constructor
      · intro hcontra
        cases hcontra
      · intro hcond
        exact absurd hcond (by assumption)
  · decide

/-- C8: the theorem evaluates the code at the failing input — a sender whose
counter has reached `2^53` (the largest exactly-representable increment
boundary for a JavaScript number).  Encrypt succeeds (instead of failing)
and returns the state with the counter STILL at `2^53` (`counter++` loses
the increment), so the next encrypt reuses the same counter: the emitted
header carries counter `2^53` both times. -/
theorem C8_counter_stall :
    (Sender.encrypt stallSender [1] 0).map (fun p => p.2.counter)
      = .ok (2 ^ 53) ∧
    (Sender.encrypt stallSender [1] 0).map (fun p => p.1)
      = .ok ([0x60, 0x20, 0, 0, 0, 0, 0, 0, 1, 0, 0, 0, 0]) ∧
    jsNumSucc (2 ^ 53) = 2 ^ 53 ∧ stallSender.counter = 2 ^ 53 := by
  refine ⟨by decide, by decide, by decide, by decide⟩
